import Mathlib

/-!
# Verification of the crestora-hub round-evaluation core

Shallow embedding of the round-evaluation lifecycle of the crestora-hub
backend (`app/services/round_service.py`, `app/api/leaderboard.py`,
`app/api/rounds.py`).  The relational store is modelled as lists of rows
(insertion ordered, as SQLAlchemy returns unordered queries on these
tables), Python floats are modelled as rationals, and every service
operation is a pure function from a database state to a new database
state paired with an `Except` result (an `Except.error` corresponds to a
raised `ValueError`/`HTTPException`; state reached before the raise is
kept, mirroring committed writes).
-/

/-- One evaluation criterion of a round: an entry of the JSON
`criteria` array `{name, max_points}` (`app/models/rounds.py`). -/
structure Criterion where
  name : String
  max_points : ℚ
  deriving DecidableEq

/-- The `TeamStatus` enum (`app/models/team.py`). -/
inductive TeamStatus where
  | ACTIVE
  | ELIMINATED
  | COMPLETED
  deriving DecidableEq

/-- A row of the `teams` table (`app/models/team.py`), restricted to the
fields the round-evaluation core reads or writes. -/
structure Team where
  team_id : String
  team_name : String
  status : TeamStatus
  current_round : ℤ
  deriving DecidableEq

/-- A row of the `rounds` table (`UnifiedEvent`, `app/models/rounds.py`),
restricted to the fields the round-evaluation core reads or writes.
`round_number = 0` denotes a parent event record, `> 0` a round. -/
structure UnifiedEvent where
  id : ℕ
  event_id : String
  round_number : ℤ
  club : Option String
  is_frozen : Bool
  is_evaluated : Bool
  criteria : Option (List Criterion)
  shortlisted_teams : Option (List String)
  max_score : Option ℚ
  min_score : Option ℚ
  avg_score : Option ℚ
  participated_count : ℕ
  deriving DecidableEq

/-- A row of the `team_scores` table (`app/models/team_score.py` plus the
`is_present` flag used throughout `round_service.py`; the spec data model
gives it default `true`).  `criteria_scores = []` models a NULL/empty JSON
map. -/
structure TeamScore where
  team_id : String
  round_id : ℕ
  event_id : String
  score : ℚ
  criteria_scores : List (String × ℚ)
  raw_total_score : ℚ
  is_normalized : Bool
  is_present : Bool
  deriving DecidableEq

/-- A row of the `round_weights` table (`app/models/round_weight.py`). -/
structure RoundWeight where
  round_id : ℕ
  weight_percentage : ℚ
  deriving DecidableEq

/-- The shared relational store: the four tables the core operates on. -/
structure DB where
  rounds : List UnifiedEvent
  teams : List Team
  team_scores : List TeamScore
  round_weights : List RoundWeight
  deriving DecidableEq

/-- Query `db.query(UnifiedEvent).filter(UnifiedEvent.id == round_id).first()`. -/
def findRound (s : DB) (round_id : ℕ) : Option UnifiedEvent :=
  s.rounds.find? (fun r => decide (r.id = round_id))

/-- Query `db.query(Team).filter(Team.team_id == team_id).first()`. -/
def findTeam (s : DB) (team_id : String) : Option Team :=
  s.teams.find? (fun t => decide (t.team_id = team_id))

/-- Query `db.query(TeamScore).filter(round_id == .., team_id == ..).first()`. -/
def findTeamScore (s : DB) (round_id : ℕ) (team_id : String) : Option TeamScore :=
  s.team_scores.find? (fun ts => decide (ts.round_id = round_id ∧ ts.team_id = team_id))

/-- Query `db.query(RoundWeight).filter(RoundWeight.round_id == round_id).first()`. -/
def findWeight (s : DB) (round_id : ℕ) : Option RoundWeight :=
  s.round_weights.find? (fun w => decide (w.round_id = round_id))

/-- In-place mutation of the round row(s) with the given primary key. -/
def updateRound (s : DB) (round_id : ℕ) (f : UnifiedEvent → UnifiedEvent) : DB :=
  { s with rounds := s.rounds.map (fun r => if r.id = round_id then f r else r) }

/-- In-place mutation of the `status` column of a team. -/
def setTeamStatus (s : DB) (team_id : String) (st : TeamStatus) : DB :=
  { s with teams := s.teams.map (fun t => if t.team_id = team_id then { t with status := st } else t) }

/-- Update-in-place of the `(team, round)` score row when it exists,
otherwise `db.add` of a fresh row (appended, i.e. last in query order). -/
def upsertTeamScore (s : DB) (round_id : ℕ) (team_id : String) (row : TeamScore) : DB :=
  if (findTeamScore s round_id team_id).isSome then
    { s with team_scores := s.team_scores.map (fun ts =>
        if ts.round_id = round_id ∧ ts.team_id = team_id then row else ts) }
  else
    { s with team_scores := s.team_scores ++ [row] }

/-- Python truthiness of the nullable JSON `criteria` column:
`None` and `[]` are falsy. -/
def criteriaTruthy : Option (List Criterion) → Bool
  | none => false
  | some [] => false
  | some (_ :: _) => true

/-- Computes `sum(criteria_scores.values())`. -/
def sumValues (cs : List (String × ℚ)) : ℚ := (cs.map Prod.snd).sum

/-- Computes the sum of the max_points entries (0 when missing) over a
criteria list. -/
def max_possible_of (criteria : List Criterion) : ℚ :=
  (criteria.map Criterion.max_points).sum

/-- The normalization branch of `RoundService.evaluate_team`
(`round_service.py` lines 128-141): returns the stored
`(score, is_normalized)` for a present team with raw total `raw_total`. -/
def normalizeStep (criteria : Option (List Criterion)) (raw_total : ℚ) : ℚ × Bool :=
  if criteriaTruthy criteria then
    let max_possible := max_possible_of (criteria.getD [])
    if 0 < max_possible then
      (min (raw_total / max_possible * 100) 100, true)
    else
      (raw_total, false)
  else
    (min raw_total 100, true)

/-- Embeds `RoundService.evaluate_team` (`round_service.py` lines 69-145). -/
def evaluate_team (s : DB) (round_id : ℕ) (team_id : String)
    (criteria_scores : List (String × ℚ)) (user_role : String)
    (user_club : Option String) (is_present : Bool) (eliminate_absentees : Bool) :
    DB × Except String TeamScore :=
  match findRound s round_id with
  | none => (s, .error "Round not found")
  | some round_obj =>
    if user_role = "clubs" ∧ round_obj.club ≠ user_club then
      (s, .error "You can only evaluate teams for your own rounds")
    else if round_obj.is_frozen then
      (s, .error "Cannot evaluate teams for frozen rounds")
    else
      match findTeam s team_id with
      | none => (s, .error "Only active teams can be evaluated")
      | some team =>
        if team.status ≠ TeamStatus.ACTIVE then
          (s, .error "Only active teams can be evaluated")
        else
          let base : TeamScore :=
            (findTeamScore s round_id team_id).getD
              { team_id := team_id, round_id := round_id,
                event_id := round_obj.event_id, score := 0,
                criteria_scores := [], raw_total_score := 0,
                is_normalized := false, is_present := is_present }
          if is_present then
            let raw_total := sumValues criteria_scores
            let norm := normalizeStep round_obj.criteria raw_total
            let row := { base with
                         is_present := true
                         raw_total_score := raw_total
                         criteria_scores := criteria_scores
                         score := norm.1
                         is_normalized := norm.2 }
            (upsertTeamScore s round_id team_id row, .ok row)
          else
            let row := { base with
                         is_present := false
                         score := 0
                         raw_total_score := 0
                         criteria_scores := []
                         is_normalized := true }
            let s1 := upsertTeamScore s round_id team_id row
            let s2 := if eliminate_absentees
                      then setTeamStatus s1 team_id TeamStatus.ELIMINATED
                      else s1
            (s2, .ok row)

/-- The payload of `UnifiedEventCreate` (`app/schemas/unified_event.py`)
restricted to the fields the core reads; note the schema does expose
`is_frozen` and `is_evaluated` (both default `false`). -/
structure RoundData where
  event_id : String
  round_number : ℤ
  club : Option String
  is_frozen : Bool
  is_evaluated : Bool
  criteria : Option (List Criterion)
  shortlisted_teams : Option (List String)
  max_score : Option ℚ
  min_score : Option ℚ
  avg_score : Option ℚ
  participated_count : ℕ
  deriving DecidableEq

/-- The fresh autoincrement primary key `db.flush()` assigns. -/
def nextRoundId (s : DB) : ℕ := (s.rounds.map UnifiedEvent.id).foldr max 0 + 1

/-- Embeds `RoundService.create_round` (`round_service.py` lines 16-49): creates
the round row, a zero `TeamScore` row per ACTIVE team, and a default
100% `RoundWeight` row. -/
def create_round (s : DB) (round_data : RoundData) (user_role : String) :
    DB × Except String ℕ :=
  if user_role ≠ "admin" then (s, .error "Only PDA can create rounds")
  else
    let rid := nextRoundId s
    let db_round : UnifiedEvent :=
      { id := rid
        event_id := round_data.event_id
        round_number := round_data.round_number
        club := round_data.club
        is_frozen := round_data.is_frozen
        is_evaluated := round_data.is_evaluated
        criteria := round_data.criteria
        shortlisted_teams := round_data.shortlisted_teams
        max_score := round_data.max_score
        min_score := round_data.min_score
        avg_score := round_data.avg_score
        participated_count := round_data.participated_count }
    let active_teams := s.teams.filter (fun t => decide (t.status = TeamStatus.ACTIVE))
    let new_scores : List TeamScore := active_teams.map (fun t =>
      { team_id := t.team_id
        round_id := rid
        event_id := round_data.event_id
        score := 0
        criteria_scores := []
        raw_total_score := 0
        is_normalized := false
        is_present := true })
    ({ s with
       rounds := s.rounds ++ [db_round]
       team_scores := s.team_scores ++ new_scores
       round_weights := s.round_weights ++ [{ round_id := rid, weight_percentage := 100 }] },
     .ok rid)

/-- Embeds `RoundService.update_criteria` (`round_service.py` lines 51-67). -/
def update_criteria (s : DB) (round_id : ℕ) (criteria : List Criterion)
    (user_role : String) (user_club : Option String) : DB × Except String Unit :=
  match findRound s round_id with
  | none => (s, .error "Round not found")
  | some round_obj =>
    if user_role = "clubs" ∧ round_obj.club ≠ user_club then
      (s, .error "You can only update criteria for your own rounds")
    else if round_obj.is_frozen then
      (s, .error "Cannot update criteria for frozen rounds")
    else
      (updateRound s round_id (fun r => { r with criteria := some criteria }), .ok ())

/-- Python `max` over a nonempty list (head as the running value). -/
def listMax (h : ℚ) (t : List ℚ) : ℚ := t.foldl max h

/-- Python `min` over a nonempty list (head as the running value). -/
def listMin (h : ℚ) (t : List ℚ) : ℚ := t.foldl min h

/-- The statistics dict returned by `freeze_round`. -/
structure FreezeResult where
  round_id : ℕ
  max_score : ℚ
  min_score : ℚ
  avg_score : ℚ
  participated_count : ℕ
  deriving DecidableEq

/-- Embeds `RoundService.freeze_round` (`round_service.py` lines 147-196). -/
def freeze_round (s : DB) (round_id : ℕ) (user_role : String)
    (user_club : Option String) : DB × Except String FreezeResult :=
  if user_role ≠ "admin" ∧ user_role ≠ "clubs" then
    (s, .error "Only PDA and club members can freeze rounds")
  else
    match findRound s round_id with
    | none => (s, .error "Round not found")
    | some round_obj =>
      if user_role = "clubs" ∧ round_obj.club ≠ user_club then
        (s, .error "You can only freeze rounds for your own club")
      else if round_obj.is_frozen then
        (s, .error "Round is already frozen")
      else
        let team_scores := s.team_scores.filter (fun ts => decide (ts.round_id = round_id))
        if team_scores.isEmpty then (s, .error "No evaluations found for this round")
        else
          let scores := (team_scores.filter (fun ts => decide (0 < ts.score))).map TeamScore.score
          let stats : ℚ × ℚ × ℚ :=
            match scores with
            | [] => (0, 0, 0)
            | h :: t => (listMax h t, listMin h t, (h :: t).sum / (h :: t).length)
          let s1 := updateRound s round_id (fun r =>
            { r with
              is_frozen := true
              max_score := some stats.1
              min_score := some stats.2.1
              avg_score := some stats.2.2
              participated_count := team_scores.length })
          (s1, .ok { round_id := round_id, max_score := stats.1,
                     min_score := stats.2.1, avg_score := stats.2.2,
                     participated_count := team_scores.length })

/-- Modelled from the spec: `RoundService.unfreeze_round` is invoked by the
API (`rounds.py`, `POST /rounds/{round_id}/unfreeze`) but its definition is
missing from the sources.  Per spec sections 4.3, 6 and 8.4: admin (PDA)
only; preconditions are that the round is FROZEN and `is_evaluated = false`;
it fails with `InvalidState` once `is_evaluated = true` regardless of the
caller role; on success it clears the frozen flag and leaves the cached
statistics in place. -/
def unfreeze_round (s : DB) (round_id : ℕ) (user_role : String) :
    DB × Except String Unit :=
  match findRound s round_id with
  | none => (s, .error "Round not found")
  | some round_obj =>
    if round_obj.is_evaluated then
      (s, .error "InvalidState: cannot unfreeze an evaluated round")
    else if user_role ≠ "admin" then
      (s, .error "Only PDA can unfreeze rounds")
    else if ¬ round_obj.is_frozen then
      (s, .error "InvalidState: round is not frozen")
    else
      (updateRound s round_id (fun r => { r with is_frozen := false }), .ok ())

/-- The in-scope rounds of the aggregation: `evaluated_rounds + frozen_rounds`
as queried in `_calculate_overall_score`, `get_leaderboard` and both
shortlist endpoints (every round with `is_evaluated`, then every frozen
not-yet-evaluated round, `round_number > 0` in both cases). -/
def in_scope_rounds (s : DB) : List UnifiedEvent :=
  s.rounds.filter (fun r => r.is_evaluated && decide (0 < r.round_number)) ++
  s.rounds.filter (fun r => r.is_frozen && !r.is_evaluated && decide (0 < r.round_number))

/-- Weight lookup with the lazy default of 100 (the value used whether the
row is materialized or not). -/
def weight_or_default (s : DB) (round_id : ℕ) : ℚ :=
  ((findWeight s round_id).map RoundWeight.weight_percentage).getD 100

/-- Computes `team_scores_dict.get(round_id, 0.0)`. -/
def score_or_zero (s : DB) (team_id : String) (round_id : ℕ) : ℚ :=
  ((findTeamScore s round_id team_id).map TeamScore.score).getD 0

/-- Embeds `RoundService._calculate_overall_score` (`round_service.py` lines
456-529) as a value: the weighted average over the distinct in-scope round
ids, a missing `TeamScore` row counting as 0 and a missing weight as 100;
`None` when no round is in scope or the total weight is 0.  (The lazy
materialization of missing weight rows it also performs is modelled at its
call sites, which pre-materialize exactly the same rows.) -/
def calculate_overall_score (s : DB) (team_id : String) : Option ℚ :=
  let all_rounds := in_scope_rounds s
  if all_rounds.isEmpty then none
  else
    let round_ids := (all_rounds.map UnifiedEvent.id).dedup
    let total_weighted_score :=
      (round_ids.map (fun rid => score_or_zero s team_id rid * (weight_or_default s rid / 100))).sum
    let total_weight := (round_ids.map (fun rid => weight_or_default s rid / 100)).sum
    if total_weight = 0 then none
    else some (total_weighted_score / total_weight)

/-- The per-team overall score exactly as the spec words it (section 4.4):
sum over the in-scope rounds of `score * weight/100` divided by the sum of
`weight/100`, a missing `TeamScore` counting as 0; undefined when no round
is in scope or the total weight is 0. -/
def specOverallScore (s : DB) (team_id : String) : Option ℚ :=
  let scope := in_scope_rounds s
  if scope.isEmpty then none
  else
    let total_weight := (scope.map (fun r => weight_or_default s r.id / 100)).sum
    if total_weight = 0 then none
    else
      some ((scope.map (fun r =>
        score_or_zero s team_id r.id * (weight_or_default s r.id / 100))).sum / total_weight)

/-- Materialize (insert and commit) a default 100% weight row for every
in-scope round id lacking one — the batch pre-fetch step shared by
`shortlist_teams`, `get_leaderboard` and
`shortlist_teams_by_overall_score`. -/
def materializeWeights (s : DB) (round_ids : List ℕ) : DB :=
  let missing := round_ids.filter (fun rid => (findWeight s rid).isNone)
  { s with round_weights :=
      s.round_weights ++ missing.map (fun rid => { round_id := rid, weight_percentage := 100 }) }

/-- Python `int(value)`: truncation toward zero. -/
def pyInt (q : ℚ) : ℤ := if 0 ≤ q then q.floor else q.ceil

/-- Stable insertion of a `(team_id, score)` pair into a descending-sorted
list: the new element goes before the first strictly smaller score and
after equal ones, matching the stability of Python `list.sort`. -/
def insertScoreDesc (x : String × ℚ) : List (String × ℚ) → List (String × ℚ)
  | [] => [x]
  | y :: ys => if y.2 ≤ x.2 then x :: y :: ys else y :: insertScoreDesc x ys

/-- Models the in-place Python list sort by score, reversed: a stable
descending sort by score. -/
def sortByScoreDesc : List (String × ℚ) → List (String × ℚ)
  | [] => []
  | x :: xs => insertScoreDesc x (sortByScoreDesc xs)

/-- The response dict of the shortlist endpoints. -/
structure ShortlistResult where
  shortlisted_count : ℕ
  eliminated_count : ℕ
  shortlisted_teams : List String
  deriving DecidableEq

/-- Set the statuses of a partition of `(team_id, score)` pairs and commit
the decision flags on the round row with the given id — the tail of
`RoundService.shortlist_teams` (lines 427-453). -/
def commitShortlist (s : DB) (final_round_id : ℕ)
    (shortlisted eliminated : List (String × ℚ)) : DB × Except String ShortlistResult :=
  let s1 := shortlisted.foldl (fun acc p => setTeamStatus acc p.1 TeamStatus.ACTIVE) s
  let s2 := eliminated.foldl (fun acc p => setTeamStatus acc p.1 TeamStatus.ELIMINATED) s1
  let ids := shortlisted.map Prod.fst
  let s3 := updateRound s2 final_round_id (fun r =>
    { r with shortlisted_teams := some ids, is_evaluated := true })
  (s3, .ok { shortlisted_count := shortlisted.length,
             eliminated_count := eliminated.length,
             shortlisted_teams := ids })

/-- Embeds `RoundService.shortlist_teams` (`round_service.py` lines 318-453).
Note the faithful modelling of the Python `for round_obj in
evaluated_rounds + frozen_rounds:` loop at line 358, which rebinds the
`round_obj` variable holding the target round: after the loop `round_obj`
is the LAST in-scope round (or still the target when no round is in
scope), and lines 442-443 write `shortlisted_teams` / `is_evaluated`
through that variable. -/
def shortlist_teams (s : DB) (round_id : ℕ) (shortlist_type : String)
    (value : ℚ) (user_role : String) : DB × Except String ShortlistResult :=
  if user_role ≠ "admin" then (s, .error "Only PDA can shortlist teams")
  else
    match findRound s round_id with
    | none => (s, .error "Round not found")
    | some target =>
      if ¬ target.is_frozen then (s, .error "Round must be frozen before shortlisting")
      else
        let all_active_teams := s.teams.filter (fun t => decide (t.status = TeamStatus.ACTIVE))
        if all_active_teams.isEmpty then (s, .error "No active teams found for shortlisting")
        else
          let round_obj := ((in_scope_rounds s).getLast?).getD target
          let all_round_ids := ((in_scope_rounds s).map UnifiedEvent.id).dedup
          let s1 := materializeWeights s all_round_ids
          let all_teams_with_scores := all_active_teams.map (fun t =>
            (t.team_id, (calculate_overall_score s1 t.team_id).getD 0))
          let sorted := sortByScoreDesc all_teams_with_scores
          if sorted.isEmpty then (s1, .error "No teams found for shortlisting")
          else if shortlist_type = "top_k" then
            let k := pyInt value
            if k ≤ 0 ∨ (sorted.length : ℤ) < k then
              (s1, .error "Invalid top_k value")
            else
              commitShortlist s1 round_obj.id (sorted.take k.toNat) (sorted.drop k.toNat)
          else if shortlist_type = "threshold" then
            if value < 0 ∨ 100 < value then
              (s1, .error "Invalid threshold value")
            else
              commitShortlist s1 round_obj.id
                (sorted.filter (fun p => decide (value ≤ p.2)))
                (sorted.filter (fun p => !decide (value ≤ p.2)))
          else
            (s1, .error "Invalid shortlist_type")

/-- The per-team score computed inside `shortlist_teams_by_overall_score`
(`leaderboard.py` lines 334-374): the weighted average over the in-scope
round ids, re-normalized by the maximum of the stored scores of the team
(100 when the team has no row); `none` when the total weight is not
positive (the team is skipped). -/
def leaderboardOverall (s : DB) (round_ids : List ℕ) (team_id : String) : Option ℚ :=
  let total_weighted :=
    (round_ids.map (fun rid => score_or_zero s team_id rid * (weight_or_default s rid / 100))).sum
  let total_weight := (round_ids.map (fun rid => weight_or_default s rid / 100)).sum
  if 0 < total_weight then
    let weighted_average := total_weighted / total_weight
    let vals := round_ids.filterMap (fun rid => (findTeamScore s rid team_id).map TeamScore.score)
    let max_possible := match vals with | [] => (100 : ℚ) | h :: t => listMax h t
    some (if 0 < max_possible then weighted_average / max_possible * 100 else 0)
  else none

/-- Keep a team active and advance its `current_round` (the shortlisted
branch of `leaderboard.py` lines 405-409). -/
def advanceTeam (s : DB) (team_id : String) : DB :=
  { s with teams := s.teams.map (fun t =>
      if t.team_id = team_id
      then { t with status := TeamStatus.ACTIVE, current_round := t.current_round + 1 }
      else t) }

/-- The response dict of `POST /api/leaderboard/shortlist`. -/
structure OverallShortlistResult where
  shortlisted_count : ℕ
  eliminated_count : ℕ
  shortlisted_teams : List String
  frozen_rounds_count : ℕ
  deriving DecidableEq

/-- The commit tail of `shortlist_teams_by_overall_score` (`leaderboard.py`
lines 404-431): statuses, then `is_evaluated = True` on ALL
currently-frozen-but-unevaluated rounds. -/
def commitOverallShortlist (s : DB) (frozen_ids : List ℕ)
    (shortlisted eliminated : List (String × ℚ)) : DB × Except String OverallShortlistResult :=
  let s1 := shortlisted.foldl (fun acc p => advanceTeam acc p.1) s
  let s2 := eliminated.foldl (fun acc p => setTeamStatus acc p.1 TeamStatus.ELIMINATED) s1
  let s3 := { s2 with rounds := s2.rounds.map (fun r =>
      if r.id ∈ frozen_ids then { r with is_evaluated := true } else r) }
  (s3, .ok { shortlisted_count := shortlisted.length,
             eliminated_count := eliminated.length,
             shortlisted_teams := shortlisted.map Prod.fst,
             frozen_rounds_count := frozen_ids.length })

/-- Embeds `shortlist_teams_by_overall_score` (`leaderboard.py` lines 266-431),
the admin-only overall-score shortlist endpoint. -/
def shortlist_teams_by_overall_score (s : DB) (shortlist_type : String)
    (value : ℚ) : DB × Except String OverallShortlistResult :=
  if shortlist_type ≠ "top_k" ∧ shortlist_type ≠ "threshold" then
    (s, .error "Invalid shortlist type")
  else
    let all_active_teams := s.teams.filter (fun t => decide (t.status = TeamStatus.ACTIVE))
    if all_active_teams.isEmpty then (s, .error "No active teams found for shortlisting")
    else
      let all_rounds := in_scope_rounds s
      if all_rounds.isEmpty then (s, .error "No evaluated or frozen rounds found for shortlisting")
      else
        let frozen_ids := (s.rounds.filter (fun r =>
          r.is_frozen && !r.is_evaluated && decide (0 < r.round_number))).map UnifiedEvent.id
        let all_round_ids := (all_rounds.map UnifiedEvent.id).dedup
        let s1 := materializeWeights s all_round_ids
        let all_teams_with_scores := all_active_teams.filterMap (fun t =>
          (leaderboardOverall s1 all_round_ids t.team_id).map (fun q => (t.team_id, q)))
        let sorted := sortByScoreDesc all_teams_with_scores
        if sorted.isEmpty then (s1, .error "No teams with scores found for shortlisting")
        else if shortlist_type = "top_k" then
          let k := pyInt value
          if k ≤ 0 ∨ (sorted.length : ℤ) < k then (s1, .error "Invalid top_k value")
          else commitOverallShortlist s1 frozen_ids (sorted.take k.toNat) (sorted.drop k.toNat)
        else
          if value < 0 ∨ 100 < value then (s1, .error "Invalid threshold value")
          else commitOverallShortlist s1 frozen_ids
            (sorted.filter (fun p => decide (value ≤ p.2)))
            (sorted.filter (fun p => !decide (value ≤ p.2)))

/-- The response dict of the toggle-elimination endpoint. -/
structure ToggleResult where
  eliminate_absentees : Bool
  reactivated_teams : ℕ
  deriving DecidableEq

/-- The team ids `toggle_elimination_setting` reactivates: currently
ELIMINATED teams joined with an `is_present = false` score row of this
round (the join of `round_service.py` lines 541-545), re-checked against
the first `(team, round)` score row (lines 550-555). -/
def reactivatedTeams (s : DB) (round_id : ℕ) : List Team :=
  (s.teams.filter (fun t =>
    decide (t.status = TeamStatus.ELIMINATED) &&
    s.team_scores.any (fun ts =>
      decide (ts.team_id = t.team_id ∧ ts.round_id = round_id) && !ts.is_present))).filter
    (fun t =>
      match findTeamScore s round_id t.team_id with
      | some ts => !ts.is_present
      | none => false)

/-- Embeds `RoundService.toggle_elimination_setting` (`round_service.py`
lines 531-571). -/
def toggle_elimination_setting (s : DB) (round_id : ℕ)
    (eliminate_absentees : Bool) : DB × Except String ToggleResult :=
  match findRound s round_id with
  | none => (s, .error "Round not found")
  | some _ =>
    if eliminate_absentees then
      (s, .ok { eliminate_absentees := true, reactivated_teams := 0 })
    else
      let toReactivate := reactivatedTeams s round_id
      let s1 := toReactivate.foldl (fun acc t => setTeamStatus acc t.team_id TeamStatus.ACTIVE) s
      (s1, .ok { eliminate_absentees := false, reactivated_teams := toReactivate.length })

/-- The response dict of the handle-absentees endpoint. -/
structure AbsenteeResult where
  eliminated_count : ℕ
  reactivated_count : ℕ
  eliminate_absentees : Bool
  deriving DecidableEq

/-- Embeds `RoundService.handle_absentees_after_freezing`
(`round_service.py` lines 573-627). -/
def handle_absentees_after_freezing (s : DB) (round_id : ℕ)
    (eliminate_absentees : Bool) : DB × Except String AbsenteeResult :=
  match findRound s round_id with
  | none => (s, .error "Round not found")
  | some round_obj =>
    if ¬ round_obj.is_frozen then
      (s, .error "Round must be frozen before handling absentees")
    else if eliminate_absentees then
      let absent := s.team_scores.filter (fun ts =>
        decide (ts.round_id = round_id) && !ts.is_present)
      let step := absent.foldl (fun (acc : DB × ℕ) ts =>
        match findTeam acc.1 ts.team_id with
        | none => acc
        | some team =>
          if team.status ≠ TeamStatus.ELIMINATED then
            (setTeamStatus acc.1 team.team_id TeamStatus.ELIMINATED, acc.2 + 1)
          else acc) (s, 0)
      (step.1, .ok { eliminated_count := step.2, reactivated_count := 0,
                     eliminate_absentees := true })
    else
      let round_scores := s.team_scores.filter (fun ts => decide (ts.round_id = round_id))
      let step := round_scores.foldl (fun (acc : DB × ℕ) ts =>
        match findTeam acc.1 ts.team_id with
        | none => acc
        | some team =>
          if team.status = TeamStatus.ELIMINATED then
            (setTeamStatus acc.1 team.team_id TeamStatus.ACTIVE, acc.2 + 1)
          else acc) (s, 0)
      (step.1, .ok { eliminated_count := 0, reactivated_count := step.2,
                     eliminate_absentees := false })

/-- One pending `evaluate_team` request against a fixed round. -/
structure EvalCall where
  team_id : String
  criteria_scores : List (String × ℚ)
  user_role : String
  user_club : Option String
  is_present : Bool
  eliminate_absentees : Bool

/-- Run a sequence of `evaluate_team` calls against one round, collecting
the result of each call. -/
def runEvaluations (s : DB) (round_id : ℕ) (calls : List EvalCall) :
    DB × List (Except String TeamScore) :=
  calls.foldl (fun acc c =>
    let r := evaluate_team acc.1 round_id c.team_id c.criteria_scores
      c.user_role c.user_club c.is_present c.eliminate_absentees
    (r.1, acc.2 ++ [r.2])) (s, [])

/-- The data-model invariant of spec section 3: a round is never
permanently finalized (`is_evaluated`) without being frozen. -/
def evaluatedImpliesFrozen (s : DB) : Prop :=
  ∀ r ∈ s.rounds, r.is_evaluated = true → r.is_frozen = true

/-- Primary-key uniqueness of the `rounds` table. -/
def nodupRoundIds (s : DB) : Prop :=
  (s.rounds.map UnifiedEvent.id).Nodup

/-- One step of the core: any invocation, with any arguments, of one of
the operations the spec lists (create round, set criteria, evaluate team,
freeze, unfreeze, shortlist — both the per-round service endpoint and the
overall-score endpoint —, toggle elimination policy, reconcile absentees).
Round creation is taken with the schema-default `is_evaluated = false`
payload. -/
inductive Step : DB → DB → Prop where
  | create (s : DB) (rd : RoundData) (role : String)
      (h : rd.is_evaluated = false) : Step s (create_round s rd role).1
  | set_criteria (s : DB) (rid : ℕ) (cs : List Criterion) (role : String)
      (club : Option String) : Step s (update_criteria s rid cs role club).1
  | evaluate (s : DB) (rid : ℕ) (tid : String) (cs : List (String × ℚ))
      (role : String) (club : Option String) (pres elim : Bool) :
      Step s (evaluate_team s rid tid cs role club pres elim).1
  | freeze (s : DB) (rid : ℕ) (role : String) (club : Option String) :
      Step s (freeze_round s rid role club).1
  | unfreeze (s : DB) (rid : ℕ) (role : String) :
      Step s (unfreeze_round s rid role).1
  | shortlist (s : DB) (rid : ℕ) (ty : String) (v : ℚ) (role : String) :
      Step s (shortlist_teams s rid ty v role).1
  | shortlist_overall (s : DB) (ty : String) (v : ℚ) :
      Step s (shortlist_teams_by_overall_score s ty v).1
  | toggle (s : DB) (rid : ℕ) (b : Bool) :
      Step s (toggle_elimination_setting s rid b).1
  | reconcile (s : DB) (rid : ℕ) (b : Bool) :
      Step s (handle_absentees_after_freezing s rid b).1

/-! ## Concrete states used by the witnesses and counterexamples -/

/-- A minimal round row: id `i`, round number `i`, flags as given, no
criteria, no cached statistics. -/
def mkRound (i : ℕ) (ev fz : Bool) : UnifiedEvent :=
  { id := i, event_id := "E1", round_number := (i : ℤ), club := none,
    is_frozen := fz, is_evaluated := ev, criteria := none,
    shortlisted_teams := none, max_score := none, min_score := none,
    avg_score := none, participated_count := 0 }

/-- A team row with the given status. -/
def mkTeam (tid : String) (st : TeamStatus) : Team :=
  { team_id := tid, team_name := tid, status := st, current_round := 1 }

/-- A present/absent normalized score row. -/
def mkScore (tid : String) (rid : ℕ) (sc : ℚ) (pres : Bool) : TeamScore :=
  { team_id := tid, round_id := rid, event_id := "E1", score := sc,
    criteria_scores := [], raw_total_score := sc, is_normalized := true,
    is_present := pres }

/-- Aggregation scenario of the spec: round 1 evaluated with weight 100%
and score 80, round 2 frozen with weight 50% and score 60. -/
def dbAgg : DB :=
  { rounds := [mkRound 1 true true, mkRound 2 false true],
    teams := [mkTeam "T1" TeamStatus.ACTIVE],
    team_scores := [mkScore "T1" 1 80 true, mkScore "T1" 2 60 true],
    round_weights := [⟨1, 100⟩, ⟨2, 50⟩] }

/-- A state with no in-scope round (the only round is open). -/
def dbNoScope : DB :=
  { rounds := [mkRound 1 false false],
    teams := [mkTeam "T1" TeamStatus.ACTIVE],
    team_scores := [], round_weights := [] }

/-- Two frozen, not-yet-evaluated rounds; the shortlist will target round 1
but the decision flags land on round 2. -/
def dbTwoFrozen : DB :=
  { rounds := [mkRound 1 false true, mkRound 2 false true],
    teams := [mkTeam "A" TeamStatus.ACTIVE, mkTeam "B" TeamStatus.ACTIVE],
    team_scores := [mkScore "A" 1 90 true, mkScore "B" 1 50 true],
    round_weights := [⟨1, 100⟩, ⟨2, 100⟩] }

/-- A frozen round that has no `RoundWeight` row (as created by the plain
`POST /api/rounds/` event endpoint, which materializes no weight). -/
def dbNoWeight : DB :=
  { rounds := [mkRound 1 false true],
    teams := [mkTeam "T1" TeamStatus.ACTIVE],
    team_scores := [], round_weights := [] }

/-- An open round whose criteria list sums to 0 max points. -/
def dbZeroCriteria : DB :=
  { rounds := [{ mkRound 1 false false with criteria := some [⟨"a", 0⟩] }],
    teams := [mkTeam "T1" TeamStatus.ACTIVE],
    team_scores := [], round_weights := [⟨1, 100⟩] }

/-- An open round with no criteria defined. -/
def dbNoCriteria : DB :=
  { rounds := [mkRound 1 false false],
    teams := [mkTeam "T1" TeamStatus.ACTIVE],
    team_scores := [], round_weights := [⟨1, 100⟩] }

/-- An open round with a single 50-point criterion. -/
def dbPosCriteria : DB :=
  { rounds := [{ mkRound 1 false false with criteria := some [⟨"a", 50⟩] }],
    teams := [mkTeam "T1" TeamStatus.ACTIVE],
    team_scores := [], round_weights := [⟨1, 100⟩] }

/-- Start of the absentee/shortlist history: one open round, teams A and B
active, nothing evaluated yet. -/
def dbHist0 : DB :=
  { rounds := [mkRound 1 false false],
    teams := [mkTeam "A" TeamStatus.ACTIVE, mkTeam "B" TeamStatus.ACTIVE],
    team_scores := [], round_weights := [⟨1, 100⟩] }

/-- B marked absent with the eliminate-absentees policy OFF (B stays
ACTIVE, its score row records `is_present = false`). -/
def dbHist1 : DB := (evaluate_team dbHist0 1 "B" [] "admin" none false false).1

/-- A evaluated present with 80 raw points. -/
def dbHist2 : DB := (evaluate_team dbHist1 1 "A" [("a", 80)] "admin" none true true).1

/-- The round frozen. -/
def dbHist3 : DB := (freeze_round dbHist2 1 "admin" none).1

/-- Top-1 shortlist: A is kept, B is eliminated BY THE SHORTLIST (its
status was still ACTIVE before this step). -/
def dbHist4 : DB := (shortlist_teams dbHist3 1 "top_k" 1 "admin").1

/-- The elimination policy toggled off for round 1. -/
def dbHist5 : DB := (toggle_elimination_setting dbHist4 1 false).1

/-- Fresh store for round creation: a single active team, no rounds. -/
def dbCreate : DB :=
  { rounds := [], teams := [mkTeam "T1" TeamStatus.ACTIVE],
    team_scores := [], round_weights := [] }

/-- The default creation payload for round number 1 of event E1. -/
def rdDefault : RoundData :=
  { event_id := "E1", round_number := 1, club := none, is_frozen := false,
    is_evaluated := false, criteria := none, shortlisted_teams := none,
    max_score := none, min_score := none, avg_score := none,
    participated_count := 0 }

/-- A creation payload that carries `is_evaluated = true` with
`is_frozen = false` — accepted by `UnifiedEventCreate`, whose
`is_evaluated`/`is_frozen` fields are client-settable. -/
def rdEvaluatedUnfrozen : RoundData :=
  { rdDefault with is_evaluated := true, is_frozen := false }

/-- The score row stored for T1 by a present evaluation of 40 points
against the single 50-point criterion. -/
def tsPos : TeamScore :=
  { team_id := "T1", round_id := 1, event_id := "E1", score := 80,
    criteria_scores := [("a", 40)], raw_total_score := 40,
    is_normalized := true, is_present := true }

/-- The score row stored for T1 by a present evaluation of 50 points in a
round without criteria. -/
def tsFallback : TeamScore :=
  { team_id := "T1", round_id := 1, event_id := "E1", score := 50,
    criteria_scores := [("a", 50)], raw_total_score := 50,
    is_normalized := true, is_present := true }

/-! ## Concrete theorems: the shortlist flag bug and the counterexamples -/

/-- C2: for a frozen round and `top_k` with `1 ≤ k ≤ |active|`, the service
keeps the top-k teams ACTIVE and eliminates the rest, but — because the
loop `for round_obj in evaluated_rounds + frozen_rounds:` at
`round_service.py` line 358 rebinds the variable that held the target
round — it writes `shortlisted_teams` and `is_evaluated = true` to the
LAST in-scope round instead of the target: with two frozen rounds and the
call aimed at round 1, round 1 keeps `is_evaluated = false` and
`shortlisted_teams = none` while round 2 receives both. -/
theorem shortlist_flags_written_to_wrong_round :
    (shortlist_teams dbTwoFrozen 1 "top_k" 1 "admin").2.isOk = true
    ∧ ((shortlist_teams dbTwoFrozen 1 "top_k" 1 "admin").1.rounds.map
        (fun r => (r.id, r.is_evaluated, r.shortlisted_teams)))
      = [(1, false, none), (2, true, some ["A"])]
    ∧ ((shortlist_teams dbTwoFrozen 1 "top_k" 1 "admin").1.teams.map
        (fun t => (t.team_id, decide (t.status = TeamStatus.ACTIVE))))
      = [("A", true), ("B", false)] := by
  refine ⟨?_, ?_, ?_⟩ <;> with_unfolding_all rfl

/-- C4 counterexample: a failing shortlist call does mutate state — on a
frozen round with no `RoundWeight` row, `top_k` with the out-of-range value
0 aborts with an error, yet a default 100% weight row has been created and
committed (the batch weight materialization runs before the value check). -/
theorem failing_shortlist_creates_weight_row :
    (shortlist_teams dbNoWeight 1 "top_k" 0 "admin").2
      = Except.error "Invalid top_k value"
    ∧ dbNoWeight.round_weights = []
    ∧ (shortlist_teams dbNoWeight 1 "top_k" 0 "admin").1.round_weights
      = [{ round_id := 1, weight_percentage := 100 }] := by
  refine ⟨?_, ?_, ?_⟩ <;> with_unfolding_all rfl

/-- C5 counterexample: with criteria defined but summing to 0 max points,
evaluating a present team with 150 submitted points stores score 150,
outside `[0, 100]`. -/
theorem normalized_score_exceeds_100 :
    ((evaluate_team dbZeroCriteria 1 "T1" [("a", 150)] "admin" none true true).2.toOption.map
      TeamScore.score) = some 150
    ∧ ¬ ((150 : ℚ) ≤ 100) := by
  exact ⟨by with_unfolding_all rfl, by norm_num⟩

/-- C6 counterexample: with criteria defined but summing to 0 max points
the stored score is the raw total itself (150), not
`min(100, raw_total) = 100`; and with criteria undefined the stored
`is_normalized` is `true`, not `false` as claimed. -/
theorem degenerate_normalization_not_capped :
    ((evaluate_team dbZeroCriteria 1 "T1" [("a", 150)] "admin" none true true).2.toOption.map
      (fun ts => (ts.score, ts.is_normalized))) = some (150, false)
    ∧ (150 : ℚ) ≠ min 100 150
    ∧ ((evaluate_team dbNoCriteria 1 "T1" [("a", 50)] "admin" none true true).2.toOption.map
      (fun ts => (ts.score, ts.is_normalized))) = some (50, true) := by
  refine ⟨by with_unfolding_all rfl, by norm_num, by with_unfolding_all rfl⟩

/-- C8 counterexample: `create_round` accepts the `UnifiedEventCreate`
payload fields `is_evaluated`/`is_frozen`, so creating a round with
`is_evaluated = true, is_frozen = false` immediately violates the
invariant `is_evaluated ⇒ is_frozen`. -/
theorem create_round_breaks_invariant :
    ¬ evaluatedImpliesFrozen (create_round dbCreate rdEvaluatedUnfrozen "admin").1 := by
  unfold evaluatedImpliesFrozen
  with_unfolding_all decide

/-- C9 counterexample: team B is marked absent in round 1 while the
eliminate-absentees policy is off (B stays ACTIVE through the freeze), is
then eliminated by the top-1 score shortlist, and
`toggle_elimination_setting(1, eliminate=false)` nevertheless reactivates
it — the code keys reactivation on the `is_present = false` row alone, not
on the cause of the elimination. -/
theorem toggle_reactivates_shortlist_eliminated :
    ((findTeam dbHist3 "B").map (fun t => decide (t.status = TeamStatus.ACTIVE))) = some true
    ∧ ((findTeam dbHist4 "B").map (fun t => decide (t.status = TeamStatus.ELIMINATED))) = some true
    ∧ ((findTeam dbHist5 "B").map (fun t => decide (t.status = TeamStatus.ACTIVE))) = some true := by
  refine ⟨?_, ?_, ?_⟩ <;> with_unfolding_all rfl

/-- C10 counterexample: immediately after `create_round` the new round
(id 1) already has a `TeamScore` row (for the one active team) and a
`RoundWeight` row — both are created eagerly, not lazily. -/
theorem create_round_initializes_rows :
    ((create_round dbCreate rdDefault "admin").1.team_scores.any
      (fun ts => decide (ts.round_id = 1))) = true
    ∧ ((create_round dbCreate rdDefault "admin").1.round_weights.any
      (fun w => decide (w.round_id = 1))) = true := by
  exact ⟨by with_unfolding_all rfl, by with_unfolding_all rfl⟩

/-! ## C3: unfreeze (spec-modelled) -/

/-- C3: `unfreeze_round` succeeds exactly when the round is frozen and not
yet evaluated, in which case it only clears the frozen flag (the cached
statistics fields of the round are untouched); once `is_evaluated = true`
it fails with the InvalidState error for every caller role; every failing
call leaves the state unchanged. -/
theorem unfreeze_round_spec (s : DB) (rid : ℕ) (r : UnifiedEvent)
    (hfind : findRound s rid = some r) :
    ((unfreeze_round s rid "admin").2.isOk = true ↔ r.is_frozen = true ∧ r.is_evaluated = false)
    ∧ (r.is_frozen = true → r.is_evaluated = false →
        unfreeze_round s rid "admin"
          = (updateRound s rid (fun x => { x with is_frozen := false }), Except.ok ()))
    ∧ (∀ role, r.is_evaluated = true →
        unfreeze_round s rid role
          = (s, Except.error "InvalidState: cannot unfreeze an evaluated round"))
    ∧ (∀ role, (unfreeze_round s rid role).2.isOk = false → (unfreeze_round s rid role).1 = s) := by
  refine ⟨?_, ?_, ?_, ?_⟩
  · unfold unfreeze_round; rw [hfind]
    by_cases hev : r.is_evaluated <;> by_cases hfz : r.is_frozen <;>
      simp [hev, hfz, Except.isOk, Except.toBool]
  · intro h1 h2; unfold unfreeze_round; rw [hfind]; simp [h1, h2]
  · intro role hev; unfold unfreeze_round; rw [hfind]; simp [hev]
  · intro role h; unfold unfreeze_round at h ⊢; rw [hfind] at h ⊢
    by_cases hev : r.is_evaluated <;> by_cases hrole : role = "admin" <;>
      by_cases hfz : r.is_frozen <;> simp_all [Except.isOk, Except.toBool]

/-- C3 witness: on a store whose round 1 is frozen and unevaluated, the
characterization applies; in particular the admin call succeeds. -/
theorem unfreeze_round_spec_witness :
    ((unfreeze_round dbTwoFrozen 1 "admin").2.isOk = true ↔
      (mkRound 1 false true).is_frozen = true ∧ (mkRound 1 false true).is_evaluated = false) ∧
    (unfreeze_round dbTwoFrozen 1 "admin").2.isOk = true :=
  ⟨(unfreeze_round_spec dbTwoFrozen 1 (mkRound 1 false true) rfl).1,
   ((unfreeze_round_spec dbTwoFrozen 1 (mkRound 1 false true) rfl).1).mpr ⟨rfl, rfl⟩⟩

/-! ## C1: the overall-score aggregation -/

/-- Under primary-key uniqueness, the in-scope round list has no duplicate
ids (its two halves filter the rounds table on contradictory
`is_evaluated` values). -/
theorem in_scope_ids_nodup (s : DB) (h : nodupRoundIds s) :
    ((in_scope_rounds s).map UnifiedEvent.id).Nodup := by
  unfold in_scope_rounds nodupRoundIds at *
  rw [List.map_append, List.nodup_append]
  refine ⟨h.sublist ((List.filter_sublist _).map _), h.sublist ((List.filter_sublist _).map _), ?_⟩
  intro x hx hy
  obtain ⟨a, ha, rfl⟩ := List.mem_map.1 hx
  obtain ⟨b, hb, hab⟩ := List.mem_map.1 hy
  have ha' := List.mem_filter.1 ha
  have hb' := List.mem_filter.1 hb
  have hfa := ha'.2
  have hfb := hb'.2
  have hare : a = b := List.inj_on_of_nodup_map h ha'.1 hb'.1 hab.symm
  subst hare
  simp only [Bool.and_eq_true, Bool.not_eq_true'] at hfa hfb
  rw [hfa.1] at hfb
  exact absurd hfb.1.2 (by simp)

/-- C1: for every team the overall score of the code
(`RoundService._calculate_overall_score`) is exactly the spec formula —
the sum over in-scope rounds (`is_evaluated`, or frozen and not evaluated,
with positive round number) of `score × weight/100`, divided by the sum of
the `weight/100`, a missing `TeamScore` row counting as score 0 — and it is
`none` exactly when no round is in scope or the total weight is zero. -/
theorem overall_score_matches_spec (s : DB) (team_id : String)
    (h : nodupRoundIds s) :
    calculate_overall_score s team_id = specOverallScore s team_id := by
  unfold calculate_overall_score specOverallScore
  dsimp only
  rw [(in_scope_ids_nodup s h).dedup, List.map_map, List.map_map]
  rfl

/-- C1 witness: in the concrete scenario of the spec (weights 100% and 50%,
scores 80 and 60) both formulas give `110/1.5 = 220/3 = 73.33…`, and with
no round in scope the overall is `none`. -/
theorem overall_score_matches_spec_witness :
    nodupRoundIds dbAgg
    ∧ calculate_overall_score dbAgg "T1" = specOverallScore dbAgg "T1"
    ∧ calculate_overall_score dbAgg "T1" = some (220 / 3)
    ∧ calculate_overall_score dbNoScope "T1" = none :=
  ⟨by unfold nodupRoundIds; decide,
   overall_score_matches_spec dbAgg "T1" (by unfold nodupRoundIds; decide),
   by with_unfolding_all rfl,
   by with_unfolding_all rfl⟩

/-! ## C7: the freeze lock -/

/-- Lookup by id over an id-preserving in-place update. -/
theorem find?_map_update (l : List UnifiedEvent) (rid : ℕ)
    (f : UnifiedEvent → UnifiedEvent) (hid : ∀ r, (f r).id = r.id) :
    (l.map (fun r => if r.id = rid then f r else r)).find? (fun r => decide (r.id = rid))
      = (l.find? (fun r => decide (r.id = rid))).map f := by
  induction l with
  | nil => rfl
  | cons a l ih =>
    by_cases h : a.id = rid
    · simp [List.find?_cons, h, hid]
    · simp [List.find?_cons, h, hid, ih]

/-- Looking up the updated round after an id-preserving `updateRound`. -/
theorem findRound_updateRound (s : DB) (rid : ℕ) (f : UnifiedEvent → UnifiedEvent)
    (hid : ∀ r, (f r).id = r.id) :
    findRound (updateRound s rid f) rid = (findRound s rid).map f :=
  find?_map_update s.rounds rid f hid

/-- After an in-place round update that sets the frozen flag, the round
looked up by id is frozen. -/
theorem frozen_after_update (s : DB) (rid : ℕ) (f : UnifiedEvent → UnifiedEvent)
    (hid : ∀ x, (f x).id = x.id) (hfz : ∀ x, (f x).is_frozen = true)
    (r : UnifiedEvent) (hfind : findRound s rid = some r) :
    ∃ r', findRound (updateRound s rid f) rid = some r' ∧ r'.is_frozen = true := by
  refine ⟨f r, ?_, hfz r⟩
  rw [findRound_updateRound s rid f hid, hfind]
  rfl

/-- A successful `freeze_round` leaves the round looked up by its id
frozen. -/
theorem freeze_round_frozen (s : DB) (rid : ℕ) (role : String)
    (club : Option String) (s' : DB) (res : FreezeResult)
    (h : freeze_round s rid role club = (s', Except.ok res)) :
    ∃ r', findRound s' rid = some r' ∧ r'.is_frozen = true := by
  unfold freeze_round at h
  dsimp only at h
  split at h
  · simp at h
  · split at h
    next => simp at h
    next r hfind =>
      split at h
      · simp at h
      · split at h
        · simp at h
        · split at h
          · simp at h
          · obtain ⟨h1, -⟩ := Prod.mk.injEq .. ▸ h
            rw [← h1]
            apply frozen_after_update
            · exact fun x => rfl
            · exact fun x => rfl
            · exact hfind

/-- Any `evaluate_team` call against a frozen round fails and leaves the
whole store untouched. -/
theorem evaluate_team_frozen (s : DB) (rid : ℕ) (tid : String)
    (cs : List (String × ℚ)) (role : String) (club : Option String)
    (pres elim : Bool) (r : UnifiedEvent)
    (hfind : findRound s rid = some r) (hfz : r.is_frozen = true) :
    (evaluate_team s rid tid cs role club pres elim).1 = s
    ∧ (evaluate_team s rid tid cs role club pres elim).2.isOk = false := by
  unfold evaluate_team
  rw [hfind]
  by_cases hc : role = "clubs" ∧ r.club ≠ club
  · simp [hc, Except.isOk, Except.toBool]
  · simp [hc, hfz, Except.isOk, Except.toBool]

/-- Folding any number of `evaluate_team` calls over a store whose round
`rid` is frozen keeps the store fixed and only accumulates errors. -/
theorem runEvaluations_frozen_aux (calls : List EvalCall) (s : DB) (rid : ℕ)
    (r : UnifiedEvent) (hfind : findRound s rid = some r) (hfz : r.is_frozen = true)
    (acc : List (Except String TeamScore)) :
    (calls.foldl (fun a c =>
        let r := evaluate_team a.1 rid c.team_id c.criteria_scores
          c.user_role c.user_club c.is_present c.eliminate_absentees
        (r.1, a.2 ++ [r.2])) (s, acc)).1 = s
    ∧ ∀ e ∈ (calls.foldl (fun a c =>
        let r := evaluate_team a.1 rid c.team_id c.criteria_scores
          c.user_role c.user_club c.is_present c.eliminate_absentees
        (r.1, a.2 ++ [r.2])) (s, acc)).2, e ∈ acc ∨ e.isOk = false := by
  induction calls generalizing acc with
  | nil => exact ⟨rfl, fun e he => Or.inl he⟩
  | cons c cs ih =>
    have hstep := evaluate_team_frozen s rid c.team_id c.criteria_scores
      c.user_role c.user_club c.is_present c.eliminate_absentees r hfind hfz
    simp only [List.foldl_cons]
    have hpair : (evaluate_team s rid c.team_id c.criteria_scores
        c.user_role c.user_club c.is_present c.eliminate_absentees).1 = s := hstep.1
    rw [hpair]
    refine ⟨(ih _).1, fun e he => ?_⟩
    rcases (ih _).2 e he with h' | h'
    · rcases List.mem_append.1 h' with h'' | h''
      · exact Or.inl h''
      · rcases List.mem_singleton.1 h'' with rfl
        exact Or.inr hstep.2
    · exact Or.inr h'

/-- C7: once `freeze_round` succeeds on a round, every subsequent
`evaluate_team` call on that round fails (is rejected before any write)
and the store — in particular every `TeamScore` row — is exactly the store
the freeze produced. -/
theorem frozen_round_rejects_evaluation (s : DB) (rid : ℕ) (role : String)
    (club : Option String) (s' : DB) (res : FreezeResult)
    (hfreeze : freeze_round s rid role club = (s', Except.ok res))
    (calls : List EvalCall) :
    (runEvaluations s' rid calls).1 = s'
    ∧ ∀ e ∈ (runEvaluations s' rid calls).2, e.isOk = false := by
  obtain ⟨r', hfind, hfz⟩ := freeze_round_frozen s rid role club s' res hfreeze
  have := runEvaluations_frozen_aux calls s' rid r' hfind hfz []
  refine ⟨this.1, fun e he => ?_⟩
  rcases this.2 e he with h' | h'
  · cases h'
  · exact h'

/-- C7 witness: freezing round 1 of the two-team history store succeeds,
after which an admin re-evaluation of team A errors and the store is
unchanged. -/
theorem frozen_round_rejects_evaluation_witness :
    (runEvaluations dbHist3 1
      [{ team_id := "A", criteria_scores := [("a", 99)], user_role := "admin",
         user_club := none, is_present := true, eliminate_absentees := true }]).1 = dbHist3
    ∧ ∀ e ∈ (runEvaluations dbHist3 1
      [{ team_id := "A", criteria_scores := [("a", 99)], user_role := "admin",
         user_club := none, is_present := true, eliminate_absentees := true }]).2,
        e.isOk = false :=
  frozen_round_rejects_evaluation dbHist2 1 "admin" none dbHist3
    { round_id := 1, max_score := 80, min_score := 80, avg_score := 80,
      participated_count := 2 }
    (by with_unfolding_all rfl) _

/-! ## C5 and C6: normalization -/

/-- The row a successful present evaluation returns carries exactly the
normalization-branch score, flag and raw total. -/
theorem evaluate_team_present_shape (s : DB) (rid : ℕ) (tid : String)
    (cs : List (String × ℚ)) (role : String) (club : Option String) (elim : Bool)
    (s' : DB) (ts : TeamScore) (r : UnifiedEvent)
    (hfind : findRound s rid = some r)
    (h : evaluate_team s rid tid cs role club true elim = (s', Except.ok ts)) :
    ts.score = (normalizeStep r.criteria (sumValues cs)).1
    ∧ ts.is_normalized = (normalizeStep r.criteria (sumValues cs)).2
    ∧ ts.raw_total_score = sumValues cs := by
  unfold evaluate_team at h
  rw [hfind] at h
  dsimp only at h
  split at h
  · simp at h
  · split at h
    · simp at h
    · split at h
      · simp at h
      · split at h
        · simp at h
        · obtain ⟨-, h2⟩ := Prod.mk.injEq .. ▸ h
          injection h2 with h3
          subst h3
          exact ⟨rfl, rfl, rfl⟩

/-- C5 (amended): for a present evaluation with nonnegative submitted
points, the stored score lies in `[0,100]` — and hits 100 exactly at
`raw_total ≥ 100` (no/empty criteria) resp. `raw_total ≥ max_possible`
(criteria with positive max-point sum).  The unrestricted version of the claim
is false: criteria summing to `≤ 0` store the raw total uncapped, and
negative submitted points are accepted and can push the score below 0. -/
theorem normalized_score_bounds_amended (s : DB) (rid : ℕ) (tid : String)
    (cs : List (String × ℚ)) (role : String) (club : Option String) (elim : Bool)
    (s' : DB) (ts : TeamScore) (r : UnifiedEvent)
    (hfind : findRound s rid = some r)
    (h : evaluate_team s rid tid cs role club true elim = (s', Except.ok ts))
    (hnn : ∀ p ∈ cs, 0 ≤ p.2) :
    (criteriaTruthy r.criteria = false →
      0 ≤ ts.score ∧ ts.score ≤ 100 ∧ (ts.score = 100 ↔ 100 ≤ sumValues cs))
    ∧ (∀ cl, r.criteria = some cl → 0 < max_possible_of cl →
      0 ≤ ts.score ∧ ts.score ≤ 100 ∧ (ts.score = 100 ↔ max_possible_of cl ≤ sumValues cs)) := by
  obtain ⟨hs, -, -⟩ :=
    evaluate_team_present_shape s rid tid cs role club elim s' ts r hfind h
  have hraw : 0 ≤ sumValues cs := by
    unfold sumValues
    apply List.sum_nonneg
    intro x hx
    obtain ⟨p, hp, rfl⟩ := List.mem_map.1 hx
    exact hnn p hp
  constructor
  · intro hcf
    rw [hs]
    unfold normalizeStep
    rw [hcf]
    simp only [Bool.false_eq_true, if_false]
    exact ⟨le_min hraw (by norm_num), min_le_right _ _, min_eq_right_iff⟩
  · intro cl hcl hM
    rw [hs, hcl]
    cases cl with
    | nil =>
      exfalso
      unfold max_possible_of at hM
      simp at hM
    | cons a l =>
      simp only [normalizeStep, criteriaTruthy, Option.getD, if_true]
      rw [if_pos hM]
      refine ⟨le_min (mul_nonneg (div_nonneg hraw (le_of_lt hM)) (by norm_num)) (by norm_num),
        min_le_right _ _, ?_⟩
      rw [min_eq_right_iff, mul_comm, le_mul_iff_one_le_right (by norm_num : (0:ℚ) < 100)]
      exact one_le_div hM

/-- C5 witness: a 40-point evaluation against a 50-point criterion stores
score 80, inside the bounds. -/
theorem normalized_score_bounds_amended_witness :
    0 ≤ tsPos.score ∧ tsPos.score ≤ 100
    ∧ (tsPos.score = 100 ↔ max_possible_of [⟨"a", 50⟩] ≤ sumValues [("a", 40)]) :=
  (normalized_score_bounds_amended dbPosCriteria 1 "T1" [("a", 40)] "admin" none true
    (evaluate_team dbPosCriteria 1 "T1" [("a", 40)] "admin" none true true).1 tsPos
    { mkRound 1 false false with criteria := some [⟨"a", 50⟩] }
    rfl (by with_unfolding_all rfl) (by decide)).2
    [⟨"a", 50⟩] rfl (by norm_num [max_possible_of])

/-- C6 (amended): when the criteria of the round are undefined or empty the
stored score is `min(100, raw_total)` with `is_normalized = true` (not
`false` as claimed); when criteria are defined but their max points sum to
`≤ 0` the stored score is the raw total itself, uncapped, with
`is_normalized = false`. -/
theorem degenerate_normalization_amended (s : DB) (rid : ℕ) (tid : String)
    (cs : List (String × ℚ)) (role : String) (club : Option String) (elim : Bool)
    (s' : DB) (ts : TeamScore) (r : UnifiedEvent)
    (hfind : findRound s rid = some r)
    (h : evaluate_team s rid tid cs role club true elim = (s', Except.ok ts)) :
    (criteriaTruthy r.criteria = false →
      ts.score = min (sumValues cs) 100 ∧ ts.is_normalized = true)
    ∧ (∀ cl, r.criteria = some cl → cl ≠ [] → max_possible_of cl ≤ 0 →
      ts.score = sumValues cs ∧ ts.is_normalized = false) := by
  obtain ⟨hs, hn, -⟩ :=
    evaluate_team_present_shape s rid tid cs role club elim s' ts r hfind h
  constructor
  · intro hcf
    rw [hs, hn]
    unfold normalizeStep
    rw [hcf]
    rw [if_neg (by simp : ¬ (false = true))]
    exact ⟨rfl, rfl⟩
  · intro cl hcl hne hM
    rw [hs, hn, hcl]
    cases cl with
    | nil => exact absurd rfl hne
    | cons a l =>
      simp only [normalizeStep, criteriaTruthy, Option.getD, if_true]
      rw [if_neg (not_lt.2 hM)]
      exact ⟨rfl, rfl⟩

/-- C6 witness: without criteria, a 50-point evaluation stores
`min(50, 100) = 50` and `is_normalized = true`. -/
theorem degenerate_normalization_amended_witness :
    tsFallback.score = min (sumValues [("a", 50)]) 100 ∧ tsFallback.is_normalized = true :=
  (degenerate_normalization_amended dbNoCriteria 1 "T1" [("a", 50)] "admin" none true
    (evaluate_team dbNoCriteria 1 "T1" [("a", 50)] "admin" none true true).1 tsFallback
    (mkRound 1 false false) rfl (by with_unfolding_all rfl)).1 rfl

/-! ## C9: toggle-elimination reactivation -/

/-- Folding status updates keyed by `key` over `L` updates exactly the
teams whose id occurs among the keys. -/
theorem foldl_set_status_teams {α : Type} (key : α → String) (L : List α)
    (st : TeamStatus) (s : DB) :
    (L.foldl (fun acc x => setTeamStatus acc (key x) st) s).teams
      = s.teams.map (fun t => if t.team_id ∈ L.map key then { t with status := st } else t) := by
  induction L generalizing s with
  | nil => simp
  | cons x L ih =>
    simp only [List.foldl_cons]
    rw [ih]
    unfold setTeamStatus
    dsimp only
    rw [List.map_map]
    apply List.map_congr_left
    intro t _
    by_cases h1 : t.team_id = key x
    · by_cases h2 : t.team_id ∈ L.map key <;>
        simp [Function.comp, h1, h2, List.mem_cons]
    · by_cases h2 : t.team_id ∈ L.map key <;>
        simp [Function.comp, h1, h2, List.mem_cons]

/-- Status-update folds leave the other three tables untouched. -/
theorem foldl_set_status_others {α : Type} (key : α → String) (L : List α)
    (st : TeamStatus) (s : DB) :
    (L.foldl (fun acc x => setTeamStatus acc (key x) st) s).rounds = s.rounds
    ∧ (L.foldl (fun acc x => setTeamStatus acc (key x) st) s).team_scores = s.team_scores
    ∧ (L.foldl (fun acc x => setTeamStatus acc (key x) st) s).round_weights = s.round_weights := by
  induction L generalizing s with
  | nil => exact ⟨rfl, rfl, rfl⟩
  | cons x L ih =>
    simp only [List.foldl_cons]
    exact ih (setTeamStatus s (key x) st)

/-- C9 (amended): with `eliminate = true` the toggle changes nothing; with
`eliminate = false` it sets to ACTIVE exactly the teams listed by
`reactivatedTeams` — the currently ELIMINATED teams having an
`is_present = false` score row in this round, regardless of what caused
their elimination — and touches nothing else. -/
theorem toggle_reactivation_amended (s : DB) (rid : ℕ) (r : UnifiedEvent)
    (hfind : findRound s rid = some r) :
    toggle_elimination_setting s rid true
      = (s, Except.ok { eliminate_absentees := true, reactivated_teams := 0 })
    ∧ (toggle_elimination_setting s rid false).1.rounds = s.rounds
    ∧ (toggle_elimination_setting s rid false).1.team_scores = s.team_scores
    ∧ (toggle_elimination_setting s rid false).1.round_weights = s.round_weights
    ∧ (toggle_elimination_setting s rid false).1.teams
        = s.teams.map (fun t =>
            if t.team_id ∈ (reactivatedTeams s rid).map Team.team_id
            then { t with status := TeamStatus.ACTIVE } else t)
    ∧ (∀ t, t ∈ reactivatedTeams s rid ↔ t ∈ s.teams
        ∧ t.status = TeamStatus.ELIMINATED
        ∧ (∃ ts ∈ s.team_scores, ts.team_id = t.team_id ∧ ts.round_id = rid
            ∧ ts.is_present = false)
        ∧ (∃ ts, findTeamScore s rid t.team_id = some ts ∧ ts.is_present = false)) := by
  refine ⟨?_, ?_, ?_, ?_, ?_, ?_⟩
  · unfold toggle_elimination_setting
    rw [hfind]
    rfl
  · unfold toggle_elimination_setting
    rw [hfind]
    exact (foldl_set_status_others Team.team_id _ _ s).1
  · unfold toggle_elimination_setting
    rw [hfind]
    exact (foldl_set_status_others Team.team_id _ _ s).2.1
  · unfold toggle_elimination_setting
    rw [hfind]
    exact (foldl_set_status_others Team.team_id _ _ s).2.2
  · unfold toggle_elimination_setting
    rw [hfind]
    exact foldl_set_status_teams Team.team_id _ _ s
  · intro t
    unfold reactivatedTeams
    simp only [List.mem_filter, Bool.and_eq_true, decide_eq_true_eq, List.any_eq_true,
      Bool.not_eq_true']
    constructor
    · rintro ⟨⟨ht, hst, ts, hts, hcond, hpres⟩, hmatch⟩
      refine ⟨ht, hst, ⟨ts, hts, hcond.1, hcond.2, hpres⟩, ?_⟩
      cases hM : findTeamScore s rid t.team_id with
      | none => rw [hM] at hmatch; cases hmatch
      | some ts' =>
        rw [hM] at hmatch
        exact ⟨ts', rfl, by simpa using hmatch⟩
    · rintro ⟨ht, hst, ⟨ts, hts, h1, h2, h3⟩, ⟨ts', hM, hp⟩⟩
      refine ⟨⟨ht, hst, ts, hts, ⟨h1, h2⟩, h3⟩, ?_⟩
      rw [hM]
      simpa using hp

/-- C9 witness: on the post-shortlist history store the `eliminate = true`
call is a no-op, as the characterization states. -/
theorem toggle_reactivation_amended_witness :
    toggle_elimination_setting dbHist4 1 true
      = (dbHist4, Except.ok { eliminate_absentees := true, reactivated_teams := 0 }) :=
  (toggle_reactivation_amended dbHist4 1
    ((findRound dbHist4 1).getD (mkRound 1 false false)) (by with_unfolding_all rfl)).1

/-! ## C10: eager row creation -/

/-- C10 (amended): an admin `create_round` succeeds and eagerly creates a
zero `TeamScore` row for every currently-ACTIVE team and a 100%
`RoundWeight` row for the new round — nothing about these rows is lazy. -/
theorem create_round_eager_rows (s : DB) (rd : RoundData) :
    (create_round s rd "admin").2 = Except.ok (nextRoundId s)
    ∧ (∀ t ∈ s.teams, t.status = TeamStatus.ACTIVE →
        ∃ ts ∈ (create_round s rd "admin").1.team_scores,
          ts.team_id = t.team_id ∧ ts.round_id = nextRoundId s ∧ ts.score = 0
          ∧ ts.raw_total_score = 0 ∧ ts.is_normalized = false)
    ∧ ∃ w ∈ (create_round s rd "admin").1.round_weights,
        w.round_id = nextRoundId s ∧ w.weight_percentage = 100 := by
  unfold create_round
  rw [if_neg (by simp)]
  dsimp only
  refine ⟨rfl, ?_, ?_⟩
  · intro t ht hst
    refine ⟨_, List.mem_append_right _ (List.mem_map.2 ⟨t, ?_, rfl⟩), rfl, rfl, rfl, rfl, rfl⟩
    exact List.mem_filter.2 ⟨ht, by simp [hst]⟩
  · exact ⟨_, List.mem_append_right _ (List.mem_singleton.2 rfl), rfl, rfl⟩

/-- C10 witness: instantiated on the one-team store, the new round has an
eager score row for T1, as exhibited. -/
theorem create_round_eager_rows_witness :
    (create_round dbCreate rdDefault "admin").2 = Except.ok (nextRoundId dbCreate)
    ∧ ∃ ts ∈ (create_round dbCreate rdDefault "admin").1.team_scores,
        ts.team_id = (mkTeam "T1" TeamStatus.ACTIVE).team_id
        ∧ ts.round_id = nextRoundId dbCreate ∧ ts.score = 0
        ∧ ts.raw_total_score = 0 ∧ ts.is_normalized = false :=
  ⟨(create_round_eager_rows dbCreate rdDefault).1,
   (create_round_eager_rows dbCreate rdDefault).2.1 (mkTeam "T1" TeamStatus.ACTIVE)
     (by decide) rfl⟩

/-! ## The shortlist branch analysis (shared by the no-mutation and
invariant theorems) -/

/-- The last element of a list is a member. -/
theorem getLast?_mem_self {α : Type} {l : List α} {x : α}
    (h : l.getLast? = some x) : x ∈ l := by
  induction l with
  | nil => cases h
  | cons a l ih =>
    cases l with
    | nil =>
      simp only [List.getLast?_singleton, Option.some.injEq] at h
      simp [h]
    | cons b l' =>
      rw [List.getLast?_cons_cons] at h
      exact List.mem_cons_of_mem _ (ih h)

/-- Every run of `RoundService.shortlist_teams` either fails with the
input state, fails with only the default weights materialized, or commits
through `commitShortlist` on the materialized state, targeting a round id
that belongs to a frozen-or-evaluated round of the store. -/
theorem shortlist_teams_cases (s : DB) (rid : ℕ) (ty : String) (v : ℚ)
    (role : String) :
    (∃ msg, shortlist_teams s rid ty v role = (s, Except.error msg))
    ∨ (∃ msg, shortlist_teams s rid ty v role
        = (materializeWeights s (((in_scope_rounds s).map UnifiedEvent.id).dedup),
           Except.error msg))
    ∨ ((shortlist_teams s rid ty v role).2.isOk = true
        ∧ ∃ fid sel elim, shortlist_teams s rid ty v role
            = commitShortlist
                (materializeWeights s (((in_scope_rounds s).map UnifiedEvent.id).dedup))
                fid sel elim
          ∧ ∃ r₀ ∈ s.rounds, r₀.id = fid
              ∧ (r₀.is_frozen = true ∨ r₀.is_evaluated = true)) := by
  unfold shortlist_teams
  split
  · exact Or.inl ⟨_, rfl⟩
  · split
    · exact Or.inl ⟨_, rfl⟩
    next r hfind =>
      split
      · exact Or.inl ⟨_, rfl⟩
      next hfz =>
        have hrmem : r ∈ s.rounds := List.mem_of_find?_eq_some hfind
        have hrfz : r.is_frozen = true := not_not.1 hfz
        have hfid : ∃ r₀ ∈ s.rounds,
            r₀.id = (((in_scope_rounds s).getLast?).getD r).id
            ∧ (r₀.is_frozen = true ∨ r₀.is_evaluated = true) := by
          cases hL : (in_scope_rounds s).getLast? with
          | none => exact ⟨r, hrmem, rfl, Or.inl hrfz⟩
          | some x =>
            have hx : x ∈ in_scope_rounds s := getLast?_mem_self hL
            rcases List.mem_append.1 hx with hx1 | hx1
            · have := (List.mem_filter.1 hx1)
              refine ⟨x, this.1, rfl, Or.inr ?_⟩
              have hp := this.2
              simp only [Bool.and_eq_true] at hp
              exact hp.1
            · have := (List.mem_filter.1 hx1)
              refine ⟨x, this.1, rfl, Or.inl ?_⟩
              have hp := this.2
              simp only [Bool.and_eq_true] at hp
              exact hp.1.1
        dsimp only
        split
        · exact Or.inl ⟨_, rfl⟩
        · split
          · exact Or.inr (Or.inl ⟨_, rfl⟩)
          · split
            · split
              · exact Or.inr (Or.inl ⟨_, rfl⟩)
              · exact Or.inr (Or.inr ⟨rfl, _, _, _, rfl, hfid⟩)
            · split
              · split
                · exact Or.inr (Or.inl ⟨_, rfl⟩)
                · exact Or.inr (Or.inr ⟨rfl, _, _, _, rfl, hfid⟩)
              · exact Or.inr (Or.inl ⟨_, rfl⟩)

/-! ## C4: failing shortlists and mutation -/

/-- C4 (amended): every failing `shortlist_teams` call aborts leaving team
statuses, round flags and score rows exactly as they were; the only
mutation a failing call can have committed is the materialization of
default 100% `RoundWeight` rows for in-scope rounds that lacked one
(which happens before the value check).  The clause of the claim that no
RoundWeight rows are created is false, and an empty in-scope round set
does not make the service call fail. -/
theorem failing_shortlist_mutates_only_default_weights (s : DB) (rid : ℕ)
    (ty : String) (v : ℚ) (role : String)
    (h : (shortlist_teams s rid ty v role).2.isOk = false) :
    (shortlist_teams s rid ty v role).1.teams = s.teams
    ∧ (shortlist_teams s rid ty v role).1.rounds = s.rounds
    ∧ (shortlist_teams s rid ty v role).1.team_scores = s.team_scores
    ∧ ∃ ws, (shortlist_teams s rid ty v role).1.round_weights = s.round_weights ++ ws
        ∧ ∀ w ∈ ws, w.weight_percentage = 100 := by
  rcases shortlist_teams_cases s rid ty v role with ⟨msg, hs⟩ | ⟨msg, hs⟩ | ⟨hok, -⟩
  · rw [hs]
    exact ⟨rfl, rfl, rfl, [], (List.append_nil _).symm,
      fun w hw => absurd hw (List.not_mem_nil w)⟩
  · rw [hs]
    refine ⟨rfl, rfl, rfl, _, rfl, ?_⟩
    intro w hw
    obtain ⟨i, hi, rfl⟩ := List.mem_map.1 hw
    rfl
  · rw [h] at hok
    cases hok

/-- C4 witness: the concrete failing call (`top_k` 0 on the weightless
frozen round) leaves teams, rounds and scores untouched and appends only
the default weight row. -/
theorem failing_shortlist_mutates_only_default_weights_witness :
    (shortlist_teams dbNoWeight 1 "top_k" 0 "admin").1.teams = dbNoWeight.teams
    ∧ (shortlist_teams dbNoWeight 1 "top_k" 0 "admin").1.rounds = dbNoWeight.rounds
    ∧ (shortlist_teams dbNoWeight 1 "top_k" 0 "admin").1.team_scores = dbNoWeight.team_scores
    ∧ ∃ ws, (shortlist_teams dbNoWeight 1 "top_k" 0 "admin").1.round_weights
          = dbNoWeight.round_weights ++ ws
        ∧ ∀ w ∈ ws, w.weight_percentage = 100 :=
  failing_shortlist_mutates_only_default_weights dbNoWeight 1 "top_k" 0 "admin"
    (by with_unfolding_all rfl)

/-! ## C8: the `is_evaluated ⇒ is_frozen` invariant -/

/-- Transport of the two round-table well-formedness facts along an
equality of round tables. -/
theorem wf_of_rounds_eq {s s' : DB} (heq : s'.rounds = s.rounds)
    (hnd : nodupRoundIds s) (hinv : evaluatedImpliesFrozen s) :
    nodupRoundIds s' ∧ evaluatedImpliesFrozen s' := by
  constructor
  · unfold nodupRoundIds at *
    rw [heq]
    exact hnd
  · intro r hr hev
    rw [heq] at hr
    exact hinv r hr hev

/-- The invariant after mapping the rounds table. -/
theorem inv_of_rounds_map {s s' : DB} {g : UnifiedEvent → UnifiedEvent}
    (heq : s'.rounds = s.rounds.map g)
    (hg : ∀ r ∈ s.rounds, (g r).is_evaluated = true → (g r).is_frozen = true) :
    evaluatedImpliesFrozen s' := by
  intro r' hr' hev
  rw [heq] at hr'
  obtain ⟨r, hr, rfl⟩ := List.mem_map.1 hr'
  exact hg r hr hev

/-- Id-uniqueness after an id-preserving map of the rounds table. -/
theorem nodup_of_rounds_map {s s' : DB} {g : UnifiedEvent → UnifiedEvent}
    (heq : s'.rounds = s.rounds.map g)
    (hid : ∀ r ∈ s.rounds, (g r).id = r.id) (hnd : nodupRoundIds s) :
    nodupRoundIds s' := by
  unfold nodupRoundIds at *
  rw [heq, List.map_map]
  have hmap : List.map (UnifiedEvent.id ∘ g) s.rounds = List.map UnifiedEvent.id s.rounds :=
    List.map_congr_left (fun r hr => by simp [Function.comp, hid r hr])
  rw [hmap]
  exact hnd

/-- Every element of a list of naturals is bounded by the running `max`. -/
theorem le_foldr_max (l : List ℕ) (x : ℕ) (hx : x ∈ l) : x ≤ l.foldr max 0 := by
  induction l with
  | nil => cases hx
  | cons a l ih =>
    rw [List.foldr_cons]
    rcases List.mem_cons.1 hx with rfl | h
    · exact le_max_left _ _
    · exact le_trans (ih h) (le_max_right _ _)

/-- A database fold whose step preserves the rounds table preserves it
globally. -/
theorem foldl_rounds_eq {β : Type} (L : List β) (g : DB → β → DB)
    (hg : ∀ acc b, (g acc b).rounds = acc.rounds) (s : DB) :
    (L.foldl g s).rounds = s.rounds := by
  induction L generalizing s with
  | nil => rfl
  | cons b L ih => rw [List.foldl_cons, ih, hg]

/-- The counting folds of the absentee handler preserve the rounds
table. -/
theorem foldl_pair_rounds {β : Type} (L : List β) (g : DB × ℕ → β → DB × ℕ)
    (hg : ∀ acc b, ((g acc b).1).rounds = (acc.1).rounds) (init : DB × ℕ) :
    ((L.foldl g init).1).rounds = (init.1).rounds := by
  induction L generalizing init with
  | nil => rfl
  | cons b L ih => rw [List.foldl_cons, ih, hg]

/-- Fact: `evaluate_team` never touches the rounds table. -/
theorem evaluate_team_rounds (s : DB) (rid : ℕ) (tid : String)
    (cs : List (String × ℚ)) (role : String) (club : Option String)
    (pres elim : Bool) :
    ((evaluate_team s rid tid cs role club pres elim).1).rounds = s.rounds := by
  unfold evaluate_team
  split
  · rfl
  · split
    · rfl
    · split
      · rfl
      · split
        · rfl
        · split
          · rfl
          · dsimp only
            split
            · show ((upsertTeamScore s rid tid _).rounds) = s.rounds
              unfold upsertTeamScore
              split <;> rfl
            · dsimp only
              split
              · show ((setTeamStatus (upsertTeamScore s rid tid _) tid _).rounds) = s.rounds
                unfold setTeamStatus upsertTeamScore
                dsimp only
                split <;> rfl
              · show ((upsertTeamScore s rid tid _).rounds) = s.rounds
                unfold upsertTeamScore
                split <;> rfl

/-- Fact: `toggle_elimination_setting` never touches the rounds table. -/
theorem toggle_rounds (s : DB) (rid : ℕ) (b : Bool) :
    ((toggle_elimination_setting s rid b).1).rounds = s.rounds := by
  unfold toggle_elimination_setting
  split
  · rfl
  · split
    · rfl
    · dsimp only
      apply foldl_rounds_eq
      intro acc t
      rfl

/-- Fact: `handle_absentees_after_freezing` never touches the rounds table. -/
theorem handle_absentees_rounds (s : DB) (rid : ℕ) (b : Bool) :
    ((handle_absentees_after_freezing s rid b).1).rounds = s.rounds := by
  unfold handle_absentees_after_freezing
  split
  · rfl
  · split
    · rfl
    · split
      · dsimp only
        apply foldl_pair_rounds
        intro acc ts
        dsimp only
        split
        · rfl
        · split <;> rfl
      · dsimp only
        apply foldl_pair_rounds
        intro acc ts
        dsimp only
        split
        · rfl
        · split <;> rfl

/-- The rounds table after the commit tail of the per-round shortlist:
only the final round id gets the decision flags. -/
theorem commitShortlist_rounds (X : DB) (fid : ℕ)
    (sel elim : List (String × ℚ)) :
    ((commitShortlist X fid sel elim).1).rounds
      = X.rounds.map (fun r => if r.id = fid
          then { r with shortlisted_teams := some (sel.map Prod.fst), is_evaluated := true }
          else r) := by
  unfold commitShortlist
  dsimp only
  unfold updateRound
  dsimp only
  congr 1
  rw [foldl_rounds_eq elim (fun acc p => setTeamStatus acc p.1 TeamStatus.ELIMINATED)
    (fun acc p => rfl)]
  exact foldl_rounds_eq sel (fun acc p => setTeamStatus acc p.1 TeamStatus.ACTIVE)
    (fun acc p => rfl) X

/-- The rounds table after the commit tail of the overall-score shortlist:
every listed frozen round id receives `is_evaluated = true`. -/
theorem commitOverallShortlist_rounds (X : DB) (fids : List ℕ)
    (sel elim : List (String × ℚ)) :
    ((commitOverallShortlist X fids sel elim).1).rounds
      = X.rounds.map (fun r => if r.id ∈ fids then { r with is_evaluated := true } else r) := by
  unfold commitOverallShortlist
  dsimp only
  congr 1
  rw [foldl_rounds_eq elim (fun acc p => setTeamStatus acc p.1 TeamStatus.ELIMINATED)
    (fun acc p => rfl)]
  exact foldl_rounds_eq sel (fun acc p => advanceTeam acc p.1) (fun acc p => rfl) X

/-- Every run of `shortlist_teams_by_overall_score` either leaves the
rounds table unchanged or stamps `is_evaluated = true` on a set of round
ids, each belonging to a frozen round of the store. -/
theorem shortlist_overall_rounds_cases (s : DB) (ty : String) (v : ℚ) :
    ((shortlist_teams_by_overall_score s ty v).1).rounds = s.rounds
    ∨ ∃ fids : List ℕ, ((shortlist_teams_by_overall_score s ty v).1).rounds
        = s.rounds.map (fun r => if r.id ∈ fids then { r with is_evaluated := true } else r)
      ∧ ∀ fid ∈ fids, ∃ r₀ ∈ s.rounds, r₀.id = fid ∧ r₀.is_frozen = true := by
  have hfids : ∀ fid ∈ (List.filter
      (fun r => r.is_frozen && !r.is_evaluated && decide (0 < r.round_number))
      s.rounds).map UnifiedEvent.id,
      ∃ r₀ ∈ s.rounds, r₀.id = fid ∧ r₀.is_frozen = true := by
    intro fid hf
    obtain ⟨r₀, hr₀, rfl⟩ := List.mem_map.1 hf
    have h' := List.mem_filter.1 hr₀
    refine ⟨r₀, h'.1, rfl, ?_⟩
    have hp := h'.2
    simp only [Bool.and_eq_true] at hp
    exact hp.1.1
  unfold shortlist_teams_by_overall_score
  dsimp only
  repeat' split
  all_goals try exact Or.inl rfl
  all_goals exact Or.inr ⟨_, commitOverallShortlist_rounds _ _ _ _, hfids⟩

/-- C8 (amended): starting from a store with unique round ids in which
every evaluated round is frozen, each core operation — round creation with
the schema-default `is_evaluated = false` payload, criteria update, team
evaluation, freeze, unfreeze, both shortlist endpoints, the elimination
toggle and the absentee reconciliation — preserves both facts; the
unrestricted version of the claim fails only because `create_round` also accepts
payloads with `is_evaluated = true, is_frozen = false`. -/
theorem step_preserves_invariant (s s' : DB) (hnd : nodupRoundIds s)
    (hinv : evaluatedImpliesFrozen s) (hstep : Step s s') :
    nodupRoundIds s' ∧ evaluatedImpliesFrozen s' := by
  cases hstep with
  | create rd role hrd =>
    unfold create_round
    split
    · exact ⟨hnd, hinv⟩
    · dsimp only
      constructor
      · unfold nodupRoundIds at *
        dsimp only
        rw [List.map_append, List.nodup_append]
        refine ⟨hnd, List.nodup_singleton _, ?_⟩
        intro x hx hx'
        rcases List.mem_singleton.1 hx' with rfl
        have hle := le_foldr_max _ _ hx
        dsimp only at hle
        unfold nextRoundId at hle
        omega
      · intro r hr hev
        rcases List.mem_append.1 hr with hr' | hr'
        · exact hinv r hr' hev
        · rcases List.mem_singleton.1 hr' with rfl
          rw [hrd] at hev
          cases hev
  | set_criteria rid cs role club =>
    unfold update_criteria
    split
    · exact ⟨hnd, hinv⟩
    · split
      · exact ⟨hnd, hinv⟩
      · split
        · exact ⟨hnd, hinv⟩
        · refine ⟨nodup_of_rounds_map rfl ?_ hnd, inv_of_rounds_map rfl ?_⟩
          · intro r hr
            by_cases h : r.id = rid <;> simp [h]
          · intro r hr hev
            by_cases h : r.id = rid
            · rw [if_pos h] at hev ⊢
              exact hinv r hr hev
            · rw [if_neg h] at hev ⊢
              exact hinv r hr hev
  | evaluate rid tid cs role club pres elim =>
    exact wf_of_rounds_eq (evaluate_team_rounds s rid tid cs role club pres elim) hnd hinv
  | freeze rid role club =>
    unfold freeze_round
    split
    · exact ⟨hnd, hinv⟩
    · split
      · exact ⟨hnd, hinv⟩
      · split
        · exact ⟨hnd, hinv⟩
        · split
          · exact ⟨hnd, hinv⟩
          · dsimp only
            split
            · exact ⟨hnd, hinv⟩
            · refine ⟨nodup_of_rounds_map rfl ?_ hnd, inv_of_rounds_map rfl ?_⟩
              · intro r hr
                by_cases h : r.id = rid <;> simp [h]
              · intro r hr hev
                by_cases h : r.id = rid
                · rw [if_pos h]
                · rw [if_neg h] at hev ⊢
                  exact hinv r hr hev
  | unfreeze rid role =>
    unfold unfreeze_round
    split
    · exact ⟨hnd, hinv⟩
    next r₀ hfind =>
      have hfind' : List.find? (fun r => decide (r.id = rid)) s.rounds = some r₀ := hfind
      have hr₀mem : r₀ ∈ s.rounds := List.mem_of_find?_eq_some hfind'
      have hp := @List.find?_some UnifiedEvent (fun r => decide (r.id = rid)) r₀ s.rounds hfind'
      have hr₀id : r₀.id = rid := of_decide_eq_true hp
      split
      · exact ⟨hnd, hinv⟩
      next hev₀ =>
        split
        · exact ⟨hnd, hinv⟩
        · split
          · exact ⟨hnd, hinv⟩
          · refine ⟨nodup_of_rounds_map rfl ?_ hnd, inv_of_rounds_map rfl ?_⟩
            · intro r hr
              by_cases h : r.id = rid <;> simp [h]
            · intro r hr hev
              by_cases h : r.id = rid
              · rw [if_pos h] at hev
                have : r = r₀ := List.inj_on_of_nodup_map hnd hr hr₀mem (by rw [h, hr₀id])
                subst this
                exact absurd (by simpa using hev) hev₀
              · rw [if_neg h] at hev ⊢
                exact hinv r hr hev
  | shortlist rid ty v role =>
    rcases shortlist_teams_cases s rid ty v role with ⟨msg, hs⟩ | ⟨msg, hs⟩ | h3
    · rw [hs]
      exact ⟨hnd, hinv⟩
    · rw [hs]
      exact ⟨hnd, hinv⟩
    · obtain ⟨-, fid, sel, elim, hs, r₀, hr₀mem, hr₀id, hr₀fe⟩ := h3
      rw [hs]
      have hfrozen : r₀.is_frozen = true := by
        rcases hr₀fe with h | h
        · exact h
        · exact hinv r₀ hr₀mem h
      have heq := commitShortlist_rounds
        (materializeWeights s (((in_scope_rounds s).map UnifiedEvent.id).dedup)) fid sel elim
      refine ⟨nodup_of_rounds_map heq ?_ hnd, inv_of_rounds_map heq ?_⟩
      · intro r hr
        by_cases h : r.id = fid <;> simp [h]
      · intro r hr hev
        by_cases h : r.id = fid
        · rw [if_pos h]
          show r.is_frozen = true
          have : r = r₀ := List.inj_on_of_nodup_map hnd hr hr₀mem (by rw [h, hr₀id])
          subst this
          exact hfrozen
        · rw [if_neg h] at hev ⊢
          exact hinv r hr hev
  | shortlist_overall ty v =>
    rcases shortlist_overall_rounds_cases s ty v with heq | ⟨fids, heq, hfids⟩
    · exact wf_of_rounds_eq heq hnd hinv
    · refine ⟨nodup_of_rounds_map heq ?_ hnd, inv_of_rounds_map heq ?_⟩
      · intro r hr
        by_cases h : r.id ∈ fids <;> simp [h]
      · intro r hr hev
        by_cases h : r.id ∈ fids
        · rw [if_pos h]
          show r.is_frozen = true
          obtain ⟨r₀, hr₀mem, hr₀id, hr₀fz⟩ := hfids r.id h
          have : r = r₀ := List.inj_on_of_nodup_map hnd hr hr₀mem hr₀id.symm
          subst this
          exact hr₀fz
        · rw [if_neg h] at hev ⊢
          exact hinv r hr hev
  | toggle rid b =>
    exact wf_of_rounds_eq (toggle_rounds s rid b) hnd hinv
  | reconcile rid b =>
    exact wf_of_rounds_eq (handle_absentees_rounds s rid b) hnd hinv

/-- C8 witness: a concrete step (the top-1 shortlist on the frozen history
round) taken from a well-formed store yields a well-formed store. -/
theorem step_preserves_invariant_witness :
    nodupRoundIds dbHist4 ∧ evaluatedImpliesFrozen dbHist4 :=
  step_preserves_invariant dbHist3 dbHist4
    (by unfold nodupRoundIds; with_unfolding_all decide)
    (by unfold evaluatedImpliesFrozen; with_unfolding_all decide)
    (Step.shortlist dbHist3 1 "top_k" 1 "admin")
